import Mathlib

set_option maxRecDepth 2000

/-!
Verification of the conversion-opcode circuit module
(`src/circuits/etable_v2/op_configure/op_conversion.rs`).

The module is embedded shallowly: a row of the event table is a record of
natural-number cell values (each cell's intrinsic range constraint is stated
separately in `cellConstraints`), the registered polynomial constraints are
functions from such a record into the prime field used by the proving
backend, and the witness-assignment procedure is a function from an
execution-step record to the values written into the cells.
-/

/-- Modelled from the spec: the circuit works over a fixed large prime field
(the scalar field of the bn254 curve used by the halo2 backend). -/
def fieldOrder : ℕ := 21888242871839275222246405745257275088548364400416034343698204186575808495617

/-- The field of circuit values. -/
abbrev Fp : Type := ZMod fieldOrder

instance : NeZero fieldOrder := ⟨by decide⟩

/-- Cell values of one row owned by `ConversionConfig`.  The two decomposed
64-bit cells are represented by their four 16-bit little-endian limb cells;
the composite `u64` value is their weighted sum (`u64Val`). -/
structure ConversionAssignment where
  value_u16_le : Fin 4 → ℕ
  value_is_i32 : ℕ
  res_u16_le : Fin 4 → ℕ
  res_is_i32 : ℕ
  flag_bit : ℕ
  flag_u16_rem : ℕ
  flag_u16_rem_diff : ℕ
  is_i32_wrap_i64 : ℕ
  is_i64_extend_i32_u : ℕ
  is_i64_extend_i32_s : ℕ

/-- Modelled from the spec: the decomposed 64-bit cell's combined value is the
weighted sum of its 16-bit limbs, least-significant first
(weights 2^0, 2^16, 2^32, 2^48). -/
def u64Val (limbs : Fin 4 → ℕ) : ℕ :=
  limbs 0 + limbs 1 * 2 ^ 16 + limbs 2 * 2 ^ 32 + limbs 3 * 2 ^ 48

/-- Modelled from the spec: the intrinsic constraints registered by the cell
allocator for each cell type — bit cells lie in {0,1}, 16-bit limb cells and
common-range cells lie in [0, 2^16). -/
def cellConstraints (a : ConversionAssignment) : Prop :=
  (∀ i : Fin 4, a.value_u16_le i < 2 ^ 16) ∧
  (∀ i : Fin 4, a.res_u16_le i < 2 ^ 16) ∧
  a.value_is_i32 ≤ 1 ∧
  a.res_is_i32 ≤ 1 ∧
  a.flag_bit ≤ 1 ∧
  a.flag_u16_rem < 2 ^ 16 ∧
  a.flag_u16_rem_diff < 2 ^ 16 ∧
  a.is_i32_wrap_i64 ≤ 1 ∧
  a.is_i64_extend_i32_u ≤ 1 ∧
  a.is_i64_extend_i32_s ≤ 1

/-- Constraint "op_conversion pick one". -/
def pickOneConstraint (a : ConversionAssignment) : Fp :=
  (a.is_i32_wrap_i64 : Fp) + (a.is_i64_extend_i32_u : Fp) + (a.is_i64_extend_i32_s : Fp) - 1

/-- Constraint group "op_conversion type matches op" (four expressions, in
source order). -/
def typeMatchesConstraints (a : ConversionAssignment) : List Fp :=
  [ (a.is_i32_wrap_i64 : Fp) * (a.value_is_i32 : Fp),
    (a.is_i32_wrap_i64 : Fp) * ((a.res_is_i32 : Fp) - 1),
    ((a.is_i64_extend_i32_s : Fp) + (a.is_i64_extend_i32_u : Fp)) * ((a.value_is_i32 : Fp) - 1),
    ((a.is_i64_extend_i32_s : Fp) + (a.is_i64_extend_i32_u : Fp)) * (a.res_is_i32 : Fp) ]

/-- Constraint "op_conversion i32_wrap_i64": transcribed exactly from the
source, where limb 0 is multiplied by `1 << 16` and limb 1 enters at
weight one. -/
def i32WrapI64Constraint (a : ConversionAssignment) : Fp :=
  (a.is_i32_wrap_i64 : Fp) *
    ((a.value_u16_le 0 : Fp) * ((1 <<< 16 : ℕ) : Fp) + (a.value_u16_le 1 : Fp)
      - ((u64Val a.res_u16_le : ℕ) : Fp))

/-- First expression of constraint "op_conversion flag bit":
`flag_bit * 2^15 + flag_u16_rem - value.u16_cells_le[1]`. -/
def flagBitConstraint1 (a : ConversionAssignment) : Fp :=
  (a.flag_bit : Fp) * ((1 <<< 15 : ℕ) : Fp) + (a.flag_u16_rem : Fp) - (a.value_u16_le 1 : Fp)

/-- Second expression of constraint "op_conversion flag bit": transcribed
exactly from the source, `flag_u16_rem - flag_u16_rem_diff - ((1 << 15) - 1)`. -/
def flagBitConstraint2 (a : ConversionAssignment) : Fp :=
  (a.flag_u16_rem : Fp) - (a.flag_u16_rem_diff : Fp) - (((1 <<< 15) - 1 : ℕ) : Fp)

/-- Constraint "i64_extend_i32_u". -/
def i64ExtendI32uConstraint (a : ConversionAssignment) : Fp :=
  (a.is_i64_extend_i32_u : Fp) *
    (((u64Val a.res_u16_le : ℕ) : Fp) - ((u64Val a.value_u16_le : ℕ) : Fp))

/-- Constraint "i64_extend_i32_s", with `pad = flag_bit * ((u32::MAX as u64) << 32)`. -/
def i64ExtendI32sConstraint (a : ConversionAssignment) : Fp :=
  (a.is_i64_extend_i32_s : Fp) *
    ((a.flag_bit : Fp) * ((0xFFFFFFFF <<< 32 : ℕ) : Fp)
      + ((u64Val a.value_u16_le : ℕ) : Fp) - ((u64Val a.res_u16_le : ℕ) : Fp))

/-- All constraints registered by `ConversionConfigBuilder::configure`
(besides the intrinsic cell-type constraints and the memory lookups)
evaluate to zero. -/
def allConstraintsHold (a : ConversionAssignment) : Prop :=
  pickOneConstraint a = 0 ∧
  (∀ c ∈ typeMatchesConstraints a, c = 0) ∧
  i32WrapI64Constraint a = 0 ∧
  flagBitConstraint1 a = 0 ∧
  flagBitConstraint2 a = 0 ∧
  i64ExtendI32uConstraint a = 0 ∧
  i64ExtendI32sConstraint a = 0

instance (a : ConversionAssignment) : Decidable (cellConstraints a) := by
  unfold cellConstraints
  infer_instance

instance (a : ConversionAssignment) : Decidable (allConstraintsHold a) := by
  unfold allConstraintsHold pickOneConstraint typeMatchesConstraints i32WrapI64Constraint
    flagBitConstraint1 flagBitConstraint2 i64ExtendI32uConstraint i64ExtendI32sConstraint
  infer_instance

/-- Modelled from the spec: location kinds of the shared memory-consistency
table. -/
inductive LocationType where
  | Stack
  | Heap
  | Global
deriving DecidableEq

/-- One memory-table lookup registered by the module.  The expression
arguments are modelled as functions of the shared row context cells
(execution id, stack pointer) and of the row's own cell assignment. -/
structure MemoryLookup where
  isWrite : Bool
  locType : LocationType
  eidExpr : ℕ → ℕ
  addrExpr : ℕ → ℕ
  typeExpr : ConversionAssignment → ℕ
  valueExpr : ConversionAssignment → ℕ
  multExpr : ℕ

/-- The stack-read lookup allocated by `configure` ("op_test stack read"). -/
def stackReadLookup : MemoryLookup where
  isWrite := false
  locType := LocationType.Stack
  eidExpr := fun eid => eid
  addrExpr := fun sp => sp + 1
  typeExpr := fun a => a.value_is_i32
  valueExpr := fun a => u64Val a.value_u16_le
  multExpr := 1

/-- The stack-write lookup allocated by `configure` ("op_test stack write"). -/
def stackWriteLookup : MemoryLookup where
  isWrite := true
  locType := LocationType.Stack
  eidExpr := fun eid => eid
  addrExpr := fun sp => sp + 1
  typeExpr := fun a => a.res_is_i32
  valueExpr := fun a => u64Val a.res_u16_le
  multExpr := 1

/-- The memory-table lookups registered by `configure`, in registration
order. -/
def conversionMemoryLookups : List MemoryLookup :=
  [stackReadLookup, stackWriteLookup]

/-- Modelled from the spec: the value-type tag of the `specs` crate; the type
cells are named `is_i32`, so `I32` is encoded as 1 and `I64` as 0 (consistent
with the registered type constraints). -/
inductive VarType where
  | I32
  | I64
deriving DecidableEq

/-- Field value written for a `VarType` tag. -/
def VarType.toBitValue : VarType → ℕ
  | VarType.I32 => 1
  | VarType.I64 => 0

/-- Modelled from the spec: the execution-step record of the `specs` crate,
restricted to the discriminants this module inspects; records of every other
opcode family are collapsed into `Other`.  The integer fields are the raw
64-bit two's-complement bit patterns carried by the record. -/
inductive StepInfo where
  | I32WrapI64 (value result : ℕ)
  | I64ExtendI32 (value result : ℕ) (sign : Bool)
  | Other
deriving DecidableEq

/-- Whether a record belongs to the conversion family handled by this module. -/
def StepInfo.inFamily : StepInfo → Bool
  | StepInfo.I32WrapI64 _ _ => true
  | StepInfo.I64ExtendI32 _ _ _ => true
  | StepInfo.Other => false

/-- The cell writes performed by one call of `ConversionConfig::assign`.
The three mode-indicator cells are `Option`-valued because `assign` only
writes the indicator of the active mode; `none` records that the cell was
left untouched. -/
structure ConversionWrites where
  is_i32_wrap_i64 : Option ℕ
  is_i64_extend_i32_u : Option ℕ
  is_i64_extend_i32_s : Option ℕ
  flag_bit : ℕ
  flag_u16_rem : ℕ
  flag_u16_rem_diff : ℕ
  value : ℕ
  res : ℕ
  value_is_i32 : ℕ
  res_is_i32 : ℕ
deriving DecidableEq

/-- The writes common to all branches of `assign`: the flag cells are derived
from the operand (`flag_u16 = value as u32 >> 16`, `flag_bit = flag_u16 >> 15`,
`flag_u16_rem = flag_u16 & 0x7fff`, `flag_u16_rem_diff = 0x7fff - flag_u16_rem`),
and the operand/result cells and their type tags are written. -/
def mkConversionWrites (wrapBit extendUBit extendSBit : Option ℕ)
    (value : ℕ) (valueType : VarType) (result : ℕ) (resultType : VarType) :
    ConversionWrites where
  is_i32_wrap_i64 := wrapBit
  is_i64_extend_i32_u := extendUBit
  is_i64_extend_i32_s := extendSBit
  flag_bit := ((value % 2 ^ 32) >>> 16) >>> 15
  flag_u16_rem := ((value % 2 ^ 32) >>> 16) &&& 0x7fff
  flag_u16_rem_diff := 0x7fff - (((value % 2 ^ 32) >>> 16) &&& 0x7fff)
  value := value
  res := result
  value_is_i32 := valueType.toBitValue
  res_is_i32 := resultType.toBitValue

/-- `ConversionConfig::assign`: matches on the record's step-info, writes the
active mode bit, and selects `(value, value_type, result, result_type)` with
the source's casts (`as u64` is reduction mod 2^64, `as u32 as u64` is
reduction mod 2^32).  A record of a foreign opcode family hits the
`unreachable!()` arm, modelled as `none`. -/
def assignWrites : StepInfo → Option ConversionWrites
  | StepInfo.I32WrapI64 value result =>
      some (mkConversionWrites (some 1) none none
        (value % 2 ^ 64) VarType.I64 (result % 2 ^ 32) VarType.I32)
  | StepInfo.I64ExtendI32 value result sign =>
      if sign then
        some (mkConversionWrites none none (some 1)
          (value % 2 ^ 32) VarType.I32 (result % 2 ^ 64) VarType.I64)
      else
        some (mkConversionWrites none (some 1) none
          (value % 2 ^ 32) VarType.I32 (result % 2 ^ 64) VarType.I64)
  | StepInfo.Other => none

/-- Modelled from the spec: `AllocatedU64Cell::assign` decomposes the written
64-bit value into its four 16-bit little-endian limb cells. -/
def limbsOf (x : ℕ) : Fin 4 → ℕ :=
  fun i => x / 2 ^ (16 * i.val) % 2 ^ 16

/-- The row assignment resulting from one `assign` call: written cells hold
the written value, and a mode cell that `assign` did not touch keeps the
backend's default cell value 0. -/
def assignedCells (w : ConversionWrites) : ConversionAssignment where
  value_u16_le := limbsOf w.value
  value_is_i32 := w.value_is_i32
  res_u16_le := limbsOf w.res
  res_is_i32 := w.res_is_i32
  flag_bit := w.flag_bit
  flag_u16_rem := w.flag_u16_rem
  flag_u16_rem_diff := w.flag_u16_rem_diff
  is_i32_wrap_i64 := w.is_i32_wrap_i64.getD 0
  is_i64_extend_i32_u := w.is_i64_extend_i32_u.getD 0
  is_i64_extend_i32_s := w.is_i64_extend_i32_s.getD 0

/-- Writes performed by `assign` on the record `I64ExtendI32 0 0 false`. -/
def extendZeroWrites : ConversionWrites :=
  ⟨none, some 1, none, 0, 0, 32767, 0, 0, 1, 0⟩

/-- Writes performed by `assign` on the record `I32WrapI64 1 1`. -/
def wrapOneWrites : ConversionWrites :=
  ⟨some 1, none, none, 0, 0, 32767, 1, 1, 0, 1⟩

/-- Writes performed by `assign` on the record `I32WrapI64 0 0`. -/
def flagSampleWrites : ConversionWrites :=
  ⟨some 1, none, none, 0, 0, 32767, 0, 0, 0, 1⟩

/-- A row satisfying every registered constraint: extend-unsigned mode,
operand 0x80000000, result 0x80000000, with `flag_u16_rem = 0x8000` and
`flag_u16_rem_diff = 1`. -/
def complementBugSample : ConversionAssignment :=
  ⟨![0, 32768, 0, 0], 1, ![0, 32768, 0, 0], 0, 0, 32768, 1, 0, 1, 0⟩

/-- A row in wrap mode used to instantiate the one-hot theorem. -/
def oneHotSample : ConversionAssignment :=
  ⟨![0, 0, 0, 0], 0, ![0, 0, 0, 0], 1, 0, 0, 32767, 1, 0, 0⟩

/-- A satisfying row in signed-extend mode: operand 0xFFFF0000, sign bit 1,
result 0xFFFFFFFFFFFF0000. -/
def extendSample : ConversionAssignment :=
  ⟨![0, 65535, 0, 0], 1, ![0, 65535, 65535, 65535], 0, 1, 32767, 0, 0, 0, 1⟩

lemma four_lt_fieldOrder : 4 < fieldOrder := by decide

lemma pow64_lt_fieldOrder : (2 : ℕ) ^ 64 < fieldOrder := by decide

lemma pow65_lt_fieldOrder : (2 : ℕ) ^ 65 < fieldOrder := by decide

lemma fp_natCast_inj {a b : ℕ} (ha : a < fieldOrder) (hb : b < fieldOrder)
    (h : (a : Fp) = (b : Fp)) : a = b := by
  have h2 := congrArg ZMod.val h
  rwa [ZMod.val_natCast, ZMod.val_natCast, Nat.mod_eq_of_lt ha, Nat.mod_eq_of_lt hb] at h2

lemma u64Val_lt (limbs : Fin 4 → ℕ) (h : ∀ i : Fin 4, limbs i < 2 ^ 16) :
    u64Val limbs < 2 ^ 64 := by
  have h0 := h 0
  have h1 := h 1
  have h2 := h 2
  have h3 := h 3
  unfold u64Val
  omega

lemma u64Val_limbsOf (x : ℕ) : u64Val (limbsOf x) = x % 2 ^ 64 := by
  unfold u64Val limbsOf
  norm_num [show ((0 : Fin 4) : ℕ) = 0 from rfl, show ((1 : Fin 4) : ℕ) = 1 from rfl,
    show ((2 : Fin 4) : ℕ) = 2 from rfl, show ((3 : Fin 4) : ℕ) = 3 from rfl]
  omega

lemma oneHotSample_pickOne : pickOneConstraint oneHotSample = 0 := by
  unfold pickOneConstraint oneHotSample
  norm_num

lemma extendSample_constraints : allConstraintsHold extendSample := by
  unfold allConstraintsHold extendSample pickOneConstraint typeMatchesConstraints
    i32WrapI64Constraint flagBitConstraint1 flagBitConstraint2
    i64ExtendI32uConstraint i64ExtendI32sConstraint u64Val
  norm_num [Matrix.cons_val_zero, Matrix.cons_val_one, Matrix.head_cons, Nat.shiftLeft_eq]

lemma complementBugSample_constraints : allConstraintsHold complementBugSample := by
  unfold allConstraintsHold complementBugSample pickOneConstraint typeMatchesConstraints
    i32WrapI64Constraint flagBitConstraint1 flagBitConstraint2
    i64ExtendI32uConstraint i64ExtendI32sConstraint u64Val
  norm_num [Matrix.cons_val_zero, Matrix.cons_val_one, Matrix.head_cons, Nat.shiftLeft_eq]

lemma flagFieldsSpec (value : ℕ) :
    ((value % 2 ^ 32) >>> 16) >>> 15 = ((value % 2 ^ 32) >>> 31) &&& 1 ∧
    (((value % 2 ^ 32) >>> 16) &&& 0x7fff)
      + (0x7fff - (((value % 2 ^ 32) >>> 16) &&& 0x7fff)) = 2 ^ 15 - 1 := by
  have hmask : ((value % 2 ^ 32) >>> 16) &&& 0x7fff = ((value % 2 ^ 32) >>> 16) % 2 ^ 15 := by
    have := Nat.and_pow_two_sub_one_eq_mod ((value % 2 ^ 32) >>> 16) 15
    norm_num at this
    norm_num
    exact this
  constructor
  · rw [← Nat.shiftRight_add, Nat.and_one_is_mod, Nat.shiftRight_eq_div_pow]
    norm_num
    omega
  · rw [hmask, Nat.shiftRight_eq_div_pow]
    norm_num
    omega

/-- C4: for every assignment whose three mode-indicator cells are constrained
to {0,1} and which satisfies the registered constraint
"op_conversion pick one", exactly one of the three mode bits equals 1 and the
other two equal 0. -/
theorem conversion_one_hot (a : ConversionAssignment)
    (h1 : a.is_i32_wrap_i64 ≤ 1) (h2 : a.is_i64_extend_i32_u ≤ 1)
    (h3 : a.is_i64_extend_i32_s ≤ 1) (h : pickOneConstraint a = 0) :
    (a.is_i32_wrap_i64 = 1 ∧ a.is_i64_extend_i32_u = 0 ∧ a.is_i64_extend_i32_s = 0) ∨
    (a.is_i32_wrap_i64 = 0 ∧ a.is_i64_extend_i32_u = 1 ∧ a.is_i64_extend_i32_s = 0) ∨
    (a.is_i32_wrap_i64 = 0 ∧ a.is_i64_extend_i32_u = 0 ∧ a.is_i64_extend_i32_s = 1) := by
  have hp := four_lt_fieldOrder
  have hsum : a.is_i32_wrap_i64 + a.is_i64_extend_i32_u + a.is_i64_extend_i32_s = 1 := by
    have hcast :
        ((a.is_i32_wrap_i64 + a.is_i64_extend_i32_u + a.is_i64_extend_i32_s : ℕ) : Fp)
          = ((1 : ℕ) : Fp) := by
      have h4 := h
      unfold pickOneConstraint at h4
      push_cast
      linear_combination h4
    exact fp_natCast_inj (by omega) (by omega) hcast
  omega

/-- Witness for C4: the one-hot conclusion holds at a concrete wrap-mode row. -/
theorem conversion_one_hot_witness :
    oneHotSample.is_i32_wrap_i64 ≤ 1 ∧ oneHotSample.is_i64_extend_i32_u ≤ 1 ∧
    oneHotSample.is_i64_extend_i32_s ≤ 1 ∧ pickOneConstraint oneHotSample = 0 ∧
    ((oneHotSample.is_i32_wrap_i64 = 1 ∧ oneHotSample.is_i64_extend_i32_u = 0 ∧
        oneHotSample.is_i64_extend_i32_s = 0) ∨
     (oneHotSample.is_i32_wrap_i64 = 0 ∧ oneHotSample.is_i64_extend_i32_u = 1 ∧
        oneHotSample.is_i64_extend_i32_s = 0) ∨
     (oneHotSample.is_i32_wrap_i64 = 0 ∧ oneHotSample.is_i64_extend_i32_u = 0 ∧
        oneHotSample.is_i64_extend_i32_s = 1)) :=
  ⟨by decide, by decide, by decide, oneHotSample_pickOne,
    conversion_one_hot oneHotSample (by decide) (by decide) (by decide) oneHotSample_pickOne⟩

/-- C9: `assign` succeeds exactly on records of the conversion family; a
record of any other opcode family hits the unreachable arm (no write set is
produced, no defaults are silently assigned). -/
theorem conversion_assign_foreign_fatal (s : StepInfo) :
    (assignWrites s).isSome = s.inFamily := by
  cases s with
  | I32WrapI64 v r => rfl
  | I64ExtendI32 v r sg => cases sg <;> rfl
  | Other => rfl

/-- C7 counterexample: `assign` on a wrap record leaves the
`is_i64_extend_i32_u` mode cell unwritten, refuting the claim that all three
mode-indicator cells are written. -/
theorem conversion_assign_skips_inactive_mode_bits :
    (assignWrites (StepInfo.I32WrapI64 0 0)).map
      (fun w => w.is_i64_extend_i32_u) = some none := rfl

/-- C7 amended: `assign` writes 1 into the mode cell matching the record's
variant and leaves the other two mode cells unwritten (they read as 0 only
through the default cell value). -/
theorem conversion_assign_mode_bit_writes (v r : ℕ) :
    ((assignWrites (StepInfo.I32WrapI64 v r)).map fun w =>
        (w.is_i32_wrap_i64, w.is_i64_extend_i32_u, w.is_i64_extend_i32_s))
      = some (some 1, none, none) ∧
    ((assignWrites (StepInfo.I64ExtendI32 v r false)).map fun w =>
        (w.is_i32_wrap_i64, w.is_i64_extend_i32_u, w.is_i64_extend_i32_s))
      = some (none, some 1, none) ∧
    ((assignWrites (StepInfo.I64ExtendI32 v r true)).map fun w =>
        (w.is_i32_wrap_i64, w.is_i64_extend_i32_u, w.is_i64_extend_i32_s))
      = some (none, none, some 1) :=
  ⟨rfl, rfl, rfl⟩

/-- C10: `assign` truncates out-of-range raw record integers instead of
rejecting them — in wrap mode the assigned result cell holds the record's
result mod 2^32, and in either extend mode the assigned operand cell holds
the record's value mod 2^32, whatever higher bits the record carries. -/
theorem conversion_assign_truncates (v r : ℕ) (sg : Bool) :
    ((assignWrites (StepInfo.I32WrapI64 v r)).map fun w =>
        u64Val ((assignedCells w).res_u16_le)) = some (r % 2 ^ 32) ∧
    ((assignWrites (StepInfo.I64ExtendI32 v r sg)).map fun w =>
        u64Val ((assignedCells w).value_u16_le)) = some (v % 2 ^ 32) := by
  have hr : r % 2 ^ 32 % 2 ^ 64 = r % 2 ^ 32 := by omega
  have hv : v % 2 ^ 32 % 2 ^ 64 = v % 2 ^ 32 := by omega
  constructor
  · simp [assignWrites, assignedCells, mkConversionWrites, u64Val_limbsOf, hr]
    omega
  · cases sg <;>
      · simp [assignWrites, assignedCells, mkConversionWrites, u64Val_limbsOf, hv]
        omega

/-- C8: `configure` registers exactly one stack-read lookup and one
stack-write lookup; the read is at the current execution id, address
stack-pointer + 1, with the operand's type bit, the operand's u64 cell and
multiplicity 1, and the write is at the same address with the result's type
bit and the result's u64 cell. -/
theorem conversion_memory_lookup_wiring (e sp : ℕ) (a : ConversionAssignment) :
    conversionMemoryLookups = [stackReadLookup, stackWriteLookup] ∧
    stackReadLookup.isWrite = false ∧
    stackReadLookup.locType = LocationType.Stack ∧
    stackReadLookup.eidExpr e = e ∧
    stackReadLookup.addrExpr sp = sp + 1 ∧
    stackReadLookup.typeExpr a = a.value_is_i32 ∧
    stackReadLookup.valueExpr a = u64Val a.value_u16_le ∧
    stackReadLookup.multExpr = 1 ∧
    stackWriteLookup.isWrite = true ∧
    stackWriteLookup.locType = LocationType.Stack ∧
    stackWriteLookup.eidExpr e = e ∧
    stackWriteLookup.addrExpr sp = sp + 1 ∧
    stackWriteLookup.typeExpr a = a.res_is_i32 ∧
    stackWriteLookup.valueExpr a = u64Val a.res_u16_le ∧
    stackWriteLookup.multExpr = 1 :=
  ⟨rfl, rfl, rfl, rfl, rfl, rfl, rfl, rfl, rfl, rfl, rfl, rfl, rfl, rfl, rfl⟩

/-- C5: for every record of the conversion family, `assign` derives the flag
bit as the top bit of the low 32 bits of the assigned operand value, and the
assigned remainder and difference cells always sum to 2^15 - 1. -/
theorem conversion_assign_flag_extraction (s : StepInfo) (w : ConversionWrites)
    (h : assignWrites s = some w) :
    w.flag_bit = ((w.value % 2 ^ 32) >>> 31) &&& 1 ∧
    w.flag_u16_rem + w.flag_u16_rem_diff = 2 ^ 15 - 1 := by
  cases s with
  | I32WrapI64 v r =>
    simp only [assignWrites, Option.some.injEq] at h
    subst h
    exact flagFieldsSpec (v % 2 ^ 64)
  | I64ExtendI32 v r sg =>
    cases sg <;>
      simp only [assignWrites, if_true, if_false, Bool.false_eq_true, Option.some.injEq] at h <;>
      subst h <;>
      exact flagFieldsSpec (v % 2 ^ 32)
  | Other => exact Option.noConfusion h

/-- Witness for C5: the flag-extraction conclusion at the record
`I32WrapI64 0 0`. -/
theorem conversion_assign_flag_extraction_witness :
    assignWrites (StepInfo.I32WrapI64 0 0) = some flagSampleWrites ∧
    (flagSampleWrites.flag_bit = ((flagSampleWrites.value % 2 ^ 32) >>> 31) &&& 1 ∧
     flagSampleWrites.flag_u16_rem + flagSampleWrites.flag_u16_rem_diff = 2 ^ 15 - 1) :=
  ⟨by decide, conversion_assign_flag_extraction (StepInfo.I32WrapI64 0 0) flagSampleWrites (by decide)⟩

/-- C6: in any assignment satisfying the cell-type constraints and all
registered constraints, if the unsigned-extend mode bit is 1 then the result
u64 cell equals the operand u64 cell, and if the signed-extend mode bit is 1
then the result equals the operand plus flag_bit * 0xFFFFFFFF00000000. -/
theorem conversion_extend_semantics (a : ConversionAssignment)
    (hc : cellConstraints a) (h : allConstraintsHold a) :
    (a.is_i64_extend_i32_u = 1 → u64Val a.res_u16_le = u64Val a.value_u16_le) ∧
    (a.is_i64_extend_i32_s = 1 →
      u64Val a.res_u16_le = u64Val a.value_u16_le + a.flag_bit * 0xFFFFFFFF00000000) := by
  obtain ⟨hvl, hrl, -, -, hfb, -, -, -, -, -⟩ := hc
  obtain ⟨-, -, -, -, -, hu, hs⟩ := h
  have hval64 : u64Val a.value_u16_le < 2 ^ 64 := u64Val_lt _ hvl
  have hres64 : u64Val a.res_u16_le < 2 ^ 64 := u64Val_lt _ hrl
  have hp64 := pow64_lt_fieldOrder
  have hp65 := pow65_lt_fieldOrder
  constructor
  · intro h1
    unfold i64ExtendI32uConstraint at hu
    rw [h1] at hu
    have hcast : ((u64Val a.res_u16_le : ℕ) : Fp) = ((u64Val a.value_u16_le : ℕ) : Fp) := by
      push_cast at hu ⊢
      linear_combination hu
    exact fp_natCast_inj (by omega) (by omega) hcast
  · intro h1
    unfold i64ExtendI32sConstraint at hs
    rw [h1] at hs
    have hC : (0xFFFFFFFF <<< 32 : ℕ) = 0xFFFFFFFF00000000 := by decide
    rw [hC] at hs
    have hcast : ((u64Val a.res_u16_le : ℕ) : Fp)
        = ((u64Val a.value_u16_le + a.flag_bit * 0xFFFFFFFF00000000 : ℕ) : Fp) := by
      push_cast at hs ⊢
      linear_combination -hs
    exact fp_natCast_inj (by omega) (by omega) hcast

/-- Witness for C6: the extend-semantics conclusion at a concrete satisfying
signed-extend row. -/
theorem conversion_extend_semantics_witness :
    cellConstraints extendSample ∧ allConstraintsHold extendSample ∧
    ((extendSample.is_i64_extend_i32_u = 1 →
        u64Val extendSample.res_u16_le = u64Val extendSample.value_u16_le) ∧
     (extendSample.is_i64_extend_i32_s = 1 →
        u64Val extendSample.res_u16_le
          = u64Val extendSample.value_u16_le + extendSample.flag_bit * 0xFFFFFFFF00000000)) :=
  ⟨by decide, extendSample_constraints,
    conversion_extend_semantics extendSample (by decide) extendSample_constraints⟩

/-- C1 (code bug): completeness fails.  On the in-family record
`I64ExtendI32 { value: 0, result: 0, sign: false }`, `assign` writes
`flag_u16_rem = 0` and `flag_u16_rem_diff = 0x7fff`, but the registered
constraint `flag_u16_rem - flag_u16_rem_diff - (2^15 - 1)` then evaluates to
-65534, not 0, so not every registered constraint vanishes on the assigned
cells. -/
theorem conversion_completeness_fails :
    assignWrites (StepInfo.I64ExtendI32 0 0 false) = some extendZeroWrites ∧
    ¬ allConstraintsHold (assignedCells extendZeroWrites) := by
  refine ⟨by decide, fun h => ?_⟩
  obtain ⟨-, -, -, -, h2, -, -⟩ := h
  unfold flagBitConstraint2 at h2
  have e1 : (assignedCells extendZeroWrites).flag_u16_rem = 0 := by decide
  have e2 : (assignedCells extendZeroWrites).flag_u16_rem_diff = 32767 := by decide
  have e3 : ((1 <<< 15) - 1 : ℕ) = 32767 := by decide
  rw [e1, e2, e3] at h2
  have h3 : ((65534 : ℕ) : Fp) = ((0 : ℕ) : Fp) := by
    push_cast
    linear_combination -h2
  have h4 := fp_natCast_inj (by decide) (by decide) h3
  omega

/-- C2 (code bug): on the in-family record `I32WrapI64 { value: 1, result: 1 }`
`assign` writes the operand limbs (1, 0, 0, 0) and the result cell 1
(the operand mod 2^32), yet the registered wrap constraint
`limb0 * 2^16 + limb1 - res` evaluates to 65535, not 0: the code's constraint
composes the limbs with swapped weights and therefore does not force
result = operand mod 2^32. -/
theorem conversion_wrap_constraint_mismatch :
    assignWrites (StepInfo.I32WrapI64 1 1) = some wrapOneWrites ∧
    i32WrapI64Constraint (assignedCells wrapOneWrites) ≠ 0 := by
  refine ⟨by decide, fun h => ?_⟩
  unfold i32WrapI64Constraint at h
  have e1 : (assignedCells wrapOneWrites).is_i32_wrap_i64 = 1 := by decide
  have e2 : (assignedCells wrapOneWrites).value_u16_le 0 = 1 := by decide
  have e3 : (assignedCells wrapOneWrites).value_u16_le 1 = 0 := by decide
  have e4 : u64Val ((assignedCells wrapOneWrites).res_u16_le) = 1 := by decide
  have e5 : (1 <<< 16 : ℕ) = 65536 := by decide
  rw [e1, e2, e3, e4, e5] at h
  have h3 : ((65535 : ℕ) : Fp) = ((0 : ℕ) : Fp) := by
    push_cast
    linear_combination h
  have h4 := fp_natCast_inj (by decide) (by decide) h3
  omega

/-- C3 (code bug): a row that satisfies every cell-type constraint and every
registered constraint but whose remainder and difference cells sum to 32769,
not 2^15 - 1: the code registers `flag_u16_rem - flag_u16_rem_diff = 2^15 - 1`
instead of the complement relation, so the constraints do not force
`flag_u16_rem + flag_u16_rem_diff = 2^15 - 1` (and the sign bit of the row's
operand 0x80000000 is certified as 0). -/
theorem conversion_flag_complement_violated :
    cellConstraints complementBugSample ∧ allConstraintsHold complementBugSample ∧
    complementBugSample.flag_u16_rem + complementBugSample.flag_u16_rem_diff ≠ 2 ^ 15 - 1 :=
  ⟨by decide, complementBugSample_constraints, by decide⟩
